import Mathlib

/-!
# CpPlotCurve

A shallow embedding of `src/CpPlotCurve.cpp` (the colour-mapped curve item of the
critical-power plot) together with theorems about its render pass and its mutators.

Conventions of the embedding

* `double` / `qreal` values are rationals (`Rat`); `int` values are `Int`; `size_t` is `Nat`.
  No statement below depends on floating-point rounding or on integer wrap-around.
* `d_data` is an explicit record (`PrivateData`) inside the curve record; member functions take
  the curve and return the updated curve.
* The `QPainter` is a record holding the current pen and the list of drawing operations it was
  asked to perform, each stored with the pen in effect when it was issued.
* Calls into Qt / Qwt whose bodies are not part of `CpPlotCurve.cpp` (scale transformation,
  `qRound`, `QRectF::contains`, `QwtPointMapper::toPolygonF`, `QwtClipper::clipPolygonF`, the colour
  map methods) are parameters: fields of `Framework`, `QwtColorMap` and `QwtSeriesData`.
* `legendChanged()` / `itemChanged()` calls are appended to the curve's `signals` log.
-/

namespace CpPlot

/-! ## Plain value types of the plotting framework -/

/-- A colour value (`QRgb`, also standing for the `QColor` built by `QColor::fromRgba`). -/
abbrev QRgb := Nat

/-- The colour `Qt::green` as an ARGB value. -/
def Qt_green : QRgb := 0xff00ff00

/-- A sample of the series: `QwtPoint3D`. -/
structure QwtPoint3D where
  x : Rat
  y : Rat
  z : Rat
deriving DecidableEq

/-- A point in paint-device coordinates: `QPointF`. -/
structure QPointF where
  x : Rat
  y : Rat
deriving DecidableEq

/-- A rectangle in paint-device coordinates: `QRectF` (left, top, width, height). -/
structure QRectF where
  x : Rat
  y : Rat
  width : Rat
  height : Rat
deriving DecidableEq

/-- The rectangle with `dx1, dy1` added to its top-left corner and `dx2, dy2` added to its
bottom-right corner: `QRectF::adjusted`. -/
def QRectF.adjusted (r : QRectF) (dx1 dy1 dx2 dy2 : Rat) : QRectF :=
  { x := r.x + dx1, y := r.y + dy1, width := r.width + dx2 - dx1, height := r.height + dy2 - dy1 }

/-- Modelled from the spec: `QwtInterval` is declared by the plotting framework and not in
`CpPlotCurve.cpp`; it is the ValueRange of the data model, a closed interval `[lo, hi]`. -/
structure QwtInterval where
  minValue : Rat
  maxValue : Rat
deriving DecidableEq

/-- Modelled from the spec: `QwtInterval::isValid` is not in `CpPlotCurve.cpp`; a ValueRange is
valid when `lo ≤ hi` and invalid when `lo > hi`. -/
def QwtInterval.isValid (r : QwtInterval) : Bool :=
  decide (r.minValue ≤ r.maxValue)

/-- The two output formats of a colour map: `QwtColorMap::Format`. -/
inductive Format where
  | RGB
  | Indexed
deriving DecidableEq

/-- A colour map object. `addr` is the address of the object (what a `QwtColorMap *` compares);
the other fields are its virtual methods. `colorIndex` returns an `unsigned char`. -/
structure QwtColorMap where
  addr : Nat
  format : Format
  rgb : QwtInterval → Rat → QRgb
  colorIndex : QwtInterval → Rat → Fin 256
  colorTable : QwtInterval → List QRgb

/-- A scale map: scale interval `[s1, s2]` and paint interval `[p1, p2]`. -/
structure QwtScaleMap where
  s1 : Rat
  s2 : Rat
  p1 : Rat
  p2 : Rat
deriving DecidableEq

/-- The scale map with its paint interval replaced: `QwtScaleMap::setPaintInterval`. -/
def QwtScaleMap.setPaintInterval (m : QwtScaleMap) (p1 p2 : Rat) : QwtScaleMap :=
  { m with p1 := p1, p2 := p2 }

/-- A pen: colour and width (`QPen( color, width )`). -/
structure QPen where
  color : QRgb
  width : Rat
deriving DecidableEq

/-- A drawing operation received by the painter, with the pen in effect at the call. -/
inductive DrawOp where
  | point (pen : QPen) (pos : QPointF)
  | polyline (pen : QPen) (pts : List QPointF)
deriving DecidableEq

/-- The painter: its current pen, whether `QwtPainter::roundingAlignment( painter )` holds for
its paint engine, and the drawing operations issued so far, oldest first. -/
structure QPainter where
  pen : QPen
  roundingAlignment : Bool
  ops : List DrawOp
deriving DecidableEq

/-- The call `painter->setPen( pen )`. -/
def QPainter.setPen (p : QPainter) (pen : QPen) : QPainter :=
  { p with pen := pen }

/-- The call `QwtPainter::drawPoint( painter, pos )`. -/
def QPainter.drawPoint (p : QPainter) (pos : QPointF) : QPainter :=
  { p with ops := p.ops ++ [DrawOp.point p.pen pos] }

/-- The call `QwtPainter::drawPolyline( painter, polygon )`. -/
def QPainter.drawPolyline (p : QPainter) (pts : List QPointF) : QPainter :=
  { p with ops := p.ops ++ [DrawOp.polyline p.pen pts] }

/-- The settings of a `QwtPointMapper`. -/
structure QwtPointMapper where
  roundPoints : Bool
  weedOutPoints : Bool
  boundingRect : Option QRectF
deriving DecidableEq

/-- The functions of Qt and Qwt called by `CpPlotCurve.cpp`, as parameters. -/
structure Framework where
  /-- The function `qRound( double )`. -/
  qRound : Rat → Int
  /-- The method `QwtScaleMap::transform( double )`. -/
  transform : QwtScaleMap → Rat → Rat
  /-- The method `QRectF::contains( x, y )`. -/
  contains : QRectF → Rat → Rat → Bool
  /-- The method `QwtPointMapper::toPolygonF( xMap, yMap, series, from, to )`. -/
  toPolygonF : QwtPointMapper → QwtScaleMap → QwtScaleMap → List QPointF → Int → Int →
    List QPointF
  /-- The function `QwtClipper::clipPolygonF( clipRect, polygon, closePolygon )`. -/
  clipPolygonF : QRectF → List QPointF → Bool → List QPointF

/-- The sample sequence behind `data()`: `QwtSeriesData<QwtPoint3D>` with its two virtual
methods `size()` and `sample( i )`. -/
structure QwtSeriesData where
  size : Nat
  sample : Int → QwtPoint3D

/-- The series `QwtPoint3DSeriesData( samples )` over a vector of samples. -/
def QwtPoint3DSeriesData (samples : List QwtPoint3D) : QwtSeriesData :=
  { size := samples.length, sample := fun i => samples.getD i.toNat ⟨0, 0, 0⟩ }

/-- The appearance-change notifications of the plot item. -/
inductive Signal where
  | legendChanged
  | itemChanged
deriving DecidableEq

/-! ## The curve -/

/-- Modelled from the spec: the enum `CpPlotCurve::PaintAttribute` is declared in `CpPlotCurve.h`,
which is not among the sources; its only flag (`ClipToCanvas` in the spec) is bit `0x01`. -/
def ClipPoints : Nat := 1

/-- The class `CpPlotCurve::PrivateData`. -/
structure PrivateData where
  colorMap : QwtColorMap
  colorRange : QwtInterval
  colorTable : List QRgb
  penWidth : Rat
  paintAttributes : Nat

/-- The constructor `PrivateData::PrivateData()`; `linear` is the object built by
`new QwtLinearColorMap()`. -/
def PrivateData.new (linear : QwtColorMap) : PrivateData :=
  { colorMap := linear
    colorRange := ⟨0, 1000⟩
    colorTable := []
    penWidth := 2
    paintAttributes := ClipPoints }

/-- The curve item: its private data, the series returned by `data()`, the notifications it has
sent and the addresses of the colour maps it has deleted. -/
structure CpPlotCurve where
  d_data : PrivateData
  series : QwtSeriesData
  signals : List Signal
  deleted : List Nat

/-- The call `legendChanged()`. -/
def CpPlotCurve.legendChanged (c : CpPlotCurve) : CpPlotCurve :=
  { c with signals := c.signals ++ [Signal.legendChanged] }

/-- The call `itemChanged()`. -/
def CpPlotCurve.itemChanged (c : CpPlotCurve) : CpPlotCurve :=
  { c with signals := c.signals ++ [Signal.itemChanged] }

/-- The method `CpPlotCurve::init()`: fresh private data and an empty series. -/
def CpPlotCurve.init (linear : QwtColorMap) : CpPlotCurve :=
  { d_data := PrivateData.new linear
    series := QwtPoint3DSeriesData []
    signals := []
    deleted := [] }

/-- The method `CpPlotCurve::setPaintAttribute( attribute, on )`. -/
def CpPlotCurve.setPaintAttribute (c : CpPlotCurve) (attr : Nat) (enable : Bool) : CpPlotCurve :=
  if enable then
    { c with d_data := { c.d_data with paintAttributes := c.d_data.paintAttributes ||| attr } }
  else
    { c with d_data := { c.d_data with
        paintAttributes := c.d_data.paintAttributes &&& (0xFFFFFFFF ^^^ attr) } }

/-- The method `CpPlotCurve::testPaintAttribute( attribute )`. -/
def CpPlotCurve.testPaintAttribute (c : CpPlotCurve) (attr : Nat) : Bool :=
  decide (c.d_data.paintAttributes &&& attr ≠ 0)

/-- The method `CpPlotCurve::setSamples( samples )`. -/
def CpPlotCurve.setSamples (c : CpPlotCurve) (samples : List QwtPoint3D) : CpPlotCurve :=
  { c with series := QwtPoint3DSeriesData samples }

/-- The method `CpPlotCurve::setColorMap( colorMap )`. -/
def CpPlotCurve.setColorMap (c : CpPlotCurve) (colorMap : QwtColorMap) : CpPlotCurve :=
  let c1 : CpPlotCurve :=
    if colorMap.addr ≠ c.d_data.colorMap.addr then
      { c with
        deleted := c.deleted ++ [c.d_data.colorMap.addr]
        d_data := { c.d_data with colorMap := colorMap } }
    else c
  c1.legendChanged.itemChanged

/-- The method `CpPlotCurve::colorMap()`. -/
def CpPlotCurve.colorMap (c : CpPlotCurve) : QwtColorMap :=
  c.d_data.colorMap

/-- The method `CpPlotCurve::setColorRange( interval )`. -/
def CpPlotCurve.setColorRange (c : CpPlotCurve) (interval : QwtInterval) : CpPlotCurve :=
  if interval ≠ c.d_data.colorRange then
    let c1 : CpPlotCurve := { c with d_data := { c.d_data with colorRange := interval } }
    c1.legendChanged.itemChanged
  else c

/-- The method `CpPlotCurve::colorRange()`. -/
def CpPlotCurve.colorRange (c : CpPlotCurve) : QwtInterval :=
  c.d_data.colorRange

/-- The method `CpPlotCurve::setPenWidth( penWidth )`. -/
def CpPlotCurve.setPenWidth (c : CpPlotCurve) (penWidth : Rat) : CpPlotCurve :=
  let penWidth : Rat := if penWidth < 0 then 0 else penWidth
  if c.d_data.penWidth ≠ penWidth then
    let c1 : CpPlotCurve := { c with d_data := { c.d_data with penWidth := 10 } }
    c1.legendChanged.itemChanged
  else c

/-- The method `CpPlotCurve::penWidth()`. -/
def CpPlotCurve.penWidth (c : CpPlotCurve) : Rat :=
  c.d_data.penWidth

/-- The inherited method `dataSize()`: the size of the series. -/
def CpPlotCurve.dataSize (c : CpPlotCurve) : Nat :=
  c.series.size

/-! ## The render pass -/

/-- The values taken by the counter of `for ( int i = lo; i <= hi; i++ )`, in order. -/
def forRange (lo hi : Int) : List Int :=
  (List.range (hi + 1 - lo).toNat).map (fun (k : Nat) => lo + (k : Int))

/-- The pixel position of a sample: both coordinates transformed by their scale map and, when
`doAlign` holds, rounded by `qRound` (the block repeated in `drawDots` and `drawLines`). -/
def pixelPoint (fw : Framework) (doAlign : Bool) (xMap yMap : QwtScaleMap)
    (sample : QwtPoint3D) : QPointF :=
  let xi : Rat := fw.transform xMap sample.x
  let yi : Rat := fw.transform yMap sample.y
  if doAlign then ⟨(fw.qRound xi : Int), (fw.qRound yi : Int)⟩ else ⟨xi, yi⟩

/-- The expression `d_data->colorTable[index]` (an index past the end of the table, which no
table built by `QwtColorMap::colorTable` has, reads as 0). -/
def PrivateData.colorTableAt (d : PrivateData) (index : Fin 256) : QRgb :=
  d.colorTable.getD index.val 0

/-- The pen chosen for a sample, the `if ( format == QwtColorMap::RGB ) ... else ...` block of
`drawDots` and `drawLines`. -/
def samplePen (d : PrivateData) (format : Format) (sample : QwtPoint3D) : QPen :=
  if format = Format.RGB then
    let rgb : QRgb := d.colorMap.rgb d.colorRange sample.z
    ⟨rgb, d.penWidth⟩
  else
    let index : Fin 256 := d.colorMap.colorIndex d.colorRange sample.z
    ⟨d.colorTableAt index, d.penWidth⟩

/-- The statement `if ( format == QwtColorMap::Indexed ) d_data->colorTable =
d_data->colorMap->colorTable( d_data->colorRange );` of `drawDots` and `drawLines`. -/
def PrivateData.buildColorTable (d : PrivateData) (format : Format) : PrivateData :=
  if format = Format.Indexed then
    { d with colorTable := d.colorMap.colorTable d.colorRange }
  else d

/-- One run of the body of the loop of `drawDots`, for the counter value `i`. -/
def drawDotsBody (fw : Framework) (d : PrivateData) (series : QwtSeriesData) (doAlign : Bool)
    (format : Format) (xMap yMap : QwtScaleMap) (canvasRect : QRectF)
    (painter : QPainter) (i : Int) : QPainter :=
  let sample : QwtPoint3D := series.sample i
  let pt : QPointF := pixelPoint fw doAlign xMap yMap sample
  if d.paintAttributes &&& ClipPoints ≠ 0 ∧ fw.contains canvasRect pt.x pt.y = false then
    painter
  else
    ((painter.setPen (samplePen d format sample)).drawPoint pt)

/-- The method `CpPlotCurve::drawDots( painter, xMap, yMap, canvasRect, from, to )`. -/
def CpPlotCurve.drawDots (fw : Framework) (c : CpPlotCurve) (painter : QPainter)
    (xMap yMap : QwtScaleMap) (canvasRect : QRectF) (iFrom iTo : Int) :
    CpPlotCurve × QPainter :=
  if c.d_data.colorRange.isValid = false then (c, painter)
  else
    let doAlign : Bool := painter.roundingAlignment
    let format : Format := c.d_data.colorMap.format
    let d : PrivateData := c.d_data.buildColorTable format
    let painter : QPainter :=
      (forRange iFrom iTo).foldl
        (drawDotsBody fw d c.series doAlign format xMap yMap canvasRect) painter
    ({ c with d_data := { d with colorTable := [] } }, painter)

/-- The method `CpPlotCurve::drawSeries( painter, xMap, yMap, canvasRect, from, to )`; a null
`painter` is `none`. -/
def CpPlotCurve.drawSeries (fw : Framework) (c : CpPlotCurve) (painter : Option QPainter)
    (xMap yMap : QwtScaleMap) (canvasRect : QRectF) (iFrom iTo : Int) :
    CpPlotCurve × Option QPainter :=
  match painter with
  | none => (c, none)
  | some p =>
    if c.dataSize ≤ 0 then (c, some p)
    else
      let iTo : Int := if iTo < 0 then (c.dataSize : Int) - 1 else iTo
      let iFrom : Int := if iFrom < 0 then 0 else iFrom
      if iFrom > iTo then (c, some p)
      else
        let r := c.drawDots fw p xMap yMap canvasRect iFrom iTo
        (r.1, some r.2)

/-- A line written to `qDebug()` by `drawLines`: the coordinates of the two points of a
segment. -/
structure DebugLine where
  x0 : Rat
  y0 : Rat
  x1 : Rat
  y1 : Rat
deriving DecidableEq

/-- The variables of the `do ... while` scan of `drawLines`, with two observers: the indices
passed to `series->sample()` and the number of times the body has run. -/
structure Scan where
  y : Int
  xi1 : Rat
  yi1 : Rat
  nextSample : QwtPoint3D
  sampled : List Int
  iterations : Nat
deriving DecidableEq

/-- The `do ... while ( y < to && xi1 == xi && yi1 == yi )` loop of `drawLines`; the first
argument bounds the number of runs of the body, and the result is `none` when the loop has not
ended within the bound. -/
def mergeScan (fw : Framework) (series : QwtSeriesData) (doAlign : Bool)
    (xMap yMap : QwtScaleMap) (iTo : Int) (xi yi : Rat) : Nat → Scan → Option Scan
  | 0, _ => none
  | fuel + 1, s =>
    let nextSample : QwtPoint3D := series.sample s.y
    let pt : QPointF := pixelPoint fw doAlign xMap yMap nextSample
    let s1 : Scan :=
      { y := s.y + 1, xi1 := pt.x, yi1 := pt.y, nextSample := nextSample
        sampled := s.sampled ++ [s.y], iterations := s.iterations + 1 }
    if s1.y < iTo ∧ s1.xi1 = xi ∧ s1.yi1 = yi then
      mergeScan fw series doAlign xMap yMap iTo xi yi fuel s1
    else some s1

/-- What a run of `drawLines` has done so far: the painter, the indices passed to
`series->sample()`, for each value of the outer counter the number of runs of the scan body,
and the lines written to `qDebug()`. -/
structure LinesTrace where
  painter : QPainter
  sampled : List Int
  scans : List (Int × Nat)
  debug : List DebugLine
deriving DecidableEq

/-- One run of the body of the outer loop of `drawLines`, for the counter value `i`. -/
def drawLinesBody (fw : Framework) (d : PrivateData) (series : QwtSeriesData) (doAlign : Bool)
    (format : Format) (xMap yMap : QwtScaleMap) (canvasRect : QRectF) (iTo : Int)
    (t : LinesTrace) (i : Int) : Option LinesTrace :=
  let sample : QwtPoint3D := series.sample i
  let pt : QPointF := pixelPoint fw doAlign xMap yMap sample
  let xi : Rat := pt.x
  let yi : Rat := pt.y
  let start : Scan :=
    { y := i + 1, xi1 := xi, yi1 := yi, nextSample := ⟨0, 0, 0⟩, sampled := [], iterations := 0 }
  match mergeScan fw series doAlign xMap yMap iTo xi yi (iTo - i).toNat start with
  | none => none
  | some s =>
    let t1 : LinesTrace :=
      { t with sampled := t.sampled ++ [i] ++ s.sampled, scans := t.scans ++ [(i, s.iterations)] }
    if d.paintAttributes &&& ClipPoints ≠ 0 ∧ fw.contains canvasRect xi yi = false then
      some t1
    else
      let xMap1 : QwtScaleMap := xMap.setPaintInterval xi s.xi1
      let yMap1 : QwtScaleMap := yMap.setPaintInterval yi s.yi1
      let pw : Rat := max 1 t1.painter.pen.width
      let clipRect : QRectF := canvasRect.adjusted (-pw) (-pw) pw pw
      let mapper : QwtPointMapper :=
        { roundPoints := true, weedOutPoints := true, boundingRect := some canvasRect }
      let samples : List QPointF := [⟨xi, yi⟩, ⟨s.xi1, s.yi1⟩]
      let polyline : List QPointF := fw.toPolygonF mapper xMap1 yMap1 samples 0 1
      let painter1 : QPainter := t1.painter.setPen (samplePen d format sample)
      let painter2 : QPainter := painter1.setPen ⟨Qt_green, 1⟩
      let debug : List DebugLine := t1.debug ++ [⟨xi, yi, s.xi1, s.yi1⟩]
      if d.paintAttributes &&& 1 ≠ 0 then
        let clipped : List QPointF := fw.clipPolygonF clipRect polyline false
        some { t1 with painter := painter2.drawPolyline clipped, debug := debug }
      else
        some { t1 with painter := painter2.drawPolyline polyline, debug := debug }

/-- The method `CpPlotCurve::drawLines( painter, xMap, yMap, canvasRect, from, to )`; the
result is `none` when a scan has not ended within its bound. -/
def CpPlotCurve.drawLines (fw : Framework) (c : CpPlotCurve) (painter : QPainter)
    (xMap yMap : QwtScaleMap) (canvasRect : QRectF) (iFrom iTo : Int) :
    Option (CpPlotCurve × LinesTrace) :=
  let t0 : LinesTrace := { painter := painter, sampled := [], scans := [], debug := [] }
  if c.d_data.colorRange.isValid = false then some (c, t0)
  else
    let doAlign : Bool := painter.roundingAlignment
    let format : Format := c.d_data.colorMap.format
    let d : PrivateData := c.d_data.buildColorTable format
    match (forRange iFrom (iTo - 1)).foldlM
        (drawLinesBody fw d c.series doAlign format xMap yMap canvasRect iTo) t0 with
    | none => none
    | some t => some ({ c with d_data := d }, t)

/-! ## Concrete collaborators used to run the definitions -/

/-- A framework for running the definitions: linear scale maps, `qRound` rounding half up,
`QRectF::contains` with inclusive edges, a point mapper and a clipper that return their input. -/
def demoFramework : Framework :=
  { qRound := fun v => Rat.floor (v + 1 / 2)
    transform := fun m s => m.p1 + (s - m.s1) * ((m.p2 - m.p1) / (m.s2 - m.s1))
    contains := fun r px py =>
      decide (r.x ≤ px ∧ px ≤ r.x + r.width ∧ r.y ≤ py ∧ py ≤ r.y + r.height)
    toPolygonF := fun _ _ _ pts _ _ => pts
    clipPolygonF := fun _ pts _ => pts }

/-- An RGB colour map for running the definitions: the colour of `z` is `⌊z⌋` clamped to the
range. -/
def demoRgbMap : QwtColorMap :=
  { addr := 1
    format := Format.RGB
    rgb := fun r z => (Rat.floor (max r.minValue (min r.maxValue z))).toNat
    colorIndex := fun _ _ => 0
    colorTable := fun _ => [] }

/-- An indexed colour map for running the definitions: index 0 below the middle of the range
and 255 from the middle on, over the table `1000, 1001, ..., 1255`. -/
def demoIndexedMap : QwtColorMap :=
  { addr := 2
    format := Format.Indexed
    rgb := fun _ _ => 0
    colorIndex := fun r z => if 2 * z < r.minValue + r.maxValue then 0 else 255
    colorTable := fun _ => (List.range 256).map (fun k => 1000 + k) }

/-- The identity scale map on `[0, 10]`. -/
def demoMap : QwtScaleMap := ⟨0, 10, 0, 10⟩

/-- The canvas `[0, 1] x [0, 1]`. -/
def demoCanvas : QRectF := ⟨0, 0, 1, 1⟩

/-- A painter with a black pen of width 0, rounding alignment on, nothing drawn. -/
def demoPainter : QPainter := ⟨⟨0, 0⟩, true, []⟩

/-- A freshly constructed curve with the RGB demonstration map as its linear colour map. -/
def demoCurve : CpPlotCurve := CpPlotCurve.init demoRgbMap

/-- The three samples of Scenario A. -/
def demoSamples : List QwtPoint3D := [⟨0, 0, 0⟩, ⟨1, 1, 500⟩, ⟨2, 2, 1000⟩]

/-- The scale map `x -> 2 x` (scale interval `[0, 10]`, paint interval `[0, 20]`). -/
def demoXMap : QwtScaleMap := ⟨0, 10, 0, 20⟩

/-- The scale map `y -> 5 + 3 y` (scale interval `[0, 10]`, paint interval `[5, 35]`). -/
def demoYMap : QwtScaleMap := ⟨0, 10, 5, 35⟩

/-- A painter like `demoPainter` whose paint engine does not round to integer pixels. -/
def demoVectorPainter : QPainter := ⟨⟨0, 0⟩, false, []⟩

/-- Two samples with different, partly fractional coordinates. -/
def demoSkewSamples : List QwtPoint3D := [⟨1 / 2, 1, 0⟩, ⟨3, 1 / 4, 500⟩]

/-- A curve holding the three samples of Scenario A and the indexed demonstration map. -/
def demoIndexedCurve : CpPlotCurve :=
  (demoCurve.setColorMap demoIndexedMap).setSamples demoSamples

/-- Three samples of which the first two round to the same pixel (Scenario C). -/
def demoMergeSamples : List QwtPoint3D := [⟨0, 0, 0⟩, ⟨1 / 4, 1 / 4, 500⟩, ⟨2, 2, 1000⟩]

/-! ## Statement-side definitions -/

/-- The colour of a value in the words of the specification (`resolve( value, range, mapping )`):
a direct mapping gives the colour of the value; an indexed mapping gives the entry of the colour
table of the range at the palette index of the value. -/
def resolve (value : Rat) (range : QwtInterval) (mapping : QwtColorMap) : QRgb :=
  match mapping.format with
  | Format.RGB => mapping.rgb range value
  | Format.Indexed => (mapping.colorTable range).getD (mapping.colorIndex range value).val 0

/-- The pixel point of a sample in the words of the specification (CoordinateProjector): the
x coordinate is the sample's `x` sent through the x-axis transform and the y coordinate is the
sample's `y` sent through the y-axis transform; with integer pixel alignment each coordinate is
then rounded to an integer, otherwise it is kept as transformed. -/
def project (fw : Framework) (aligned : Bool) (xMap yMap : QwtScaleMap) (sample : QwtPoint3D) :
    QPointF :=
  { x := if aligned then ((fw.qRound (fw.transform xMap sample.x) : Int) : Rat)
         else fw.transform xMap sample.x
    y := if aligned then ((fw.qRound (fw.transform yMap sample.y) : Int) : Rat)
         else fw.transform yMap sample.y }

/-- The pen a drawing operation was issued with. -/
def DrawOp.pen (op : DrawOp) : QPen :=
  match op with
  | DrawOp.point pen _ => pen
  | DrawOp.polyline pen _ => pen

/-- The drawing operations held by a possibly null painter. -/
def paintedOps (painter : Option QPainter) : List DrawOp :=
  match painter with
  | none => []
  | some p => p.ops

/-- The points a run of the `drawDots` loop over the counter values `l` adds to the painter. -/
def dotsOps (fw : Framework) (d : PrivateData) (series : QwtSeriesData) (doAlign : Bool)
    (format : Format) (xMap yMap : QwtScaleMap) (canvasRect : QRectF) (l : List Int) :
    List DrawOp :=
  (l.filter (fun i => decide (¬ (d.paintAttributes &&& ClipPoints ≠ 0 ∧
      fw.contains canvasRect (pixelPoint fw doAlign xMap yMap (series.sample i)).x
        (pixelPoint fw doAlign xMap yMap (series.sample i)).y = false)))).map
    (fun i => DrawOp.point (samplePen d format (series.sample i))
      (pixelPoint fw doAlign xMap yMap (series.sample i)))

/-! ## Lemmas on the loops -/

/-- The counter of `for ( i = lo; i <= hi; i++ )` takes exactly the values of `[lo, hi]`. -/
theorem mem_forRange (lo hi i : Int) : i ∈ forRange lo hi ↔ lo ≤ i ∧ i ≤ hi := by
  unfold forRange
  simp only [List.mem_map, List.mem_range]
  constructor
  · rintro ⟨k, hk, rfl⟩
    omega
  · rintro ⟨h1, h2⟩
    refine ⟨(i - lo).toNat, ?_, ?_⟩ <;> omega

/-- The counter values come in strictly increasing order. -/
theorem forRange_pairwise (lo hi : Int) : (forRange lo hi).Pairwise (fun a b => a < b) := by
  unfold forRange
  rw [List.pairwise_map]
  refine List.Pairwise.imp ?_ (List.pairwise_lt_range _)
  intro a b hab
  omega

/-- The loop body runs `hi + 1 - lo` times (never when `hi < lo`). -/
theorem forRange_length (lo hi : Int) : (forRange lo hi).length = (hi + 1 - lo).toNat := by
  simp [forRange]

/-- The loop of `drawDots` appends `dotsOps` to the operations of the painter and keeps its
rounding alignment. -/
theorem drawDotsBody_foldl (fw : Framework) (d : PrivateData) (series : QwtSeriesData)
    (doAlign : Bool) (format : Format) (xMap yMap : QwtScaleMap) (canvasRect : QRectF)
    (l : List Int) (p : QPainter) :
    (l.foldl (drawDotsBody fw d series doAlign format xMap yMap canvasRect) p).ops
        = p.ops ++ dotsOps fw d series doAlign format xMap yMap canvasRect l ∧
    (l.foldl (drawDotsBody fw d series doAlign format xMap yMap canvasRect) p).roundingAlignment
        = p.roundingAlignment := by
  induction l generalizing p with
  | nil => simp [dotsOps]
  | cons i l ih =>
    rw [List.foldl_cons]
    obtain ⟨ih1, ih2⟩ := ih (drawDotsBody fw d series doAlign format xMap yMap canvasRect p i)
    rw [ih1, ih2]
    by_cases hclip : d.paintAttributes &&& ClipPoints ≠ 0 ∧
        fw.contains canvasRect (pixelPoint fw doAlign xMap yMap (series.sample i)).x
          (pixelPoint fw doAlign xMap yMap (series.sample i)).y = false
    · have hb : drawDotsBody fw d series doAlign format xMap yMap canvasRect p i = p := by
        simp only [drawDotsBody]
        rw [if_pos hclip]
      rw [hb]
      refine ⟨?_, rfl⟩
      simp only [dotsOps, List.filter_cons]
      rw [if_neg (by rw [decide_eq_true_eq]; exact not_not_intro hclip)]
    · have hb : drawDotsBody fw d series doAlign format xMap yMap canvasRect p i
          = (p.setPen (samplePen d format (series.sample i))).drawPoint
              (pixelPoint fw doAlign xMap yMap (series.sample i)) := by
        simp only [drawDotsBody]
        rw [if_neg hclip]
      rw [hb]
      refine ⟨?_, rfl⟩
      simp only [dotsOps, List.filter_cons]
      rw [if_pos (decide_eq_true hclip)]
      simp [QPainter.drawPoint, QPainter.setPen]

/-- The position computed by the drawing code is the projection of the specification. -/
theorem pixelPoint_eq_project (fw : Framework) (doAlign : Bool) (xMap yMap : QwtScaleMap)
    (sample : QwtPoint3D) :
    pixelPoint fw doAlign xMap yMap sample = project fw doAlign xMap yMap sample := by
  cases doAlign <;> simp [pixelPoint, project]

/-- After the colour table of the pass has been built, the pen chosen for a sample has the
resolved colour of its `z` and the configured width. -/
theorem samplePen_buildColorTable (d : PrivateData) (sample : QwtPoint3D) :
    samplePen (d.buildColorTable d.colorMap.format) d.colorMap.format sample
      = ⟨resolve sample.z d.colorRange d.colorMap, d.penWidth⟩ := by
  cases h : d.colorMap.format <;>
    simp [samplePen, resolve, h, PrivateData.buildColorTable, PrivateData.colorTableAt]

/-- Building the colour table and clearing it again restores private data whose table was
empty. -/
theorem buildColorTable_clear (d : PrivateData) (format : Format) (h : d.colorTable = []) :
    { d.buildColorTable format with colorTable := [] } = d := by
  cases d
  unfold PrivateData.buildColorTable
  split_ifs <;> simp_all

/-- With a valid colour range `drawDots` appends `dotsOps` over `[from, to]`, keeps the rounding
alignment of the painter, and returns the curve unchanged when its colour table was empty. -/
theorem drawDots_valid (fw : Framework) (c : CpPlotCurve) (p : QPainter)
    (xMap yMap : QwtScaleMap) (canvasRect : QRectF) (iFrom iTo : Int)
    (hvalid : c.d_data.colorRange.isValid = true) :
    ((c.drawDots fw p xMap yMap canvasRect iFrom iTo).2.ops
      = p.ops ++ dotsOps fw (c.d_data.buildColorTable c.d_data.colorMap.format) c.series
          p.roundingAlignment c.d_data.colorMap.format xMap yMap canvasRect
          (forRange iFrom iTo)) ∧
    (c.drawDots fw p xMap yMap canvasRect iFrom iTo).2.roundingAlignment
      = p.roundingAlignment ∧
    (c.d_data.colorTable = [] → (c.drawDots fw p xMap yMap canvasRect iFrom iTo).1 = c) := by
  have hne : ¬ (c.d_data.colorRange.isValid = false) := by simp [hvalid]
  unfold CpPlotCurve.drawDots
  rw [if_neg hne]
  refine ⟨(drawDotsBody_foldl fw _ c.series _ _ xMap yMap canvasRect _ p).1,
    (drawDotsBody_foldl fw _ c.series _ _ xMap yMap canvasRect _ p).2, ?_⟩
  intro htable
  simp only
  rw [buildColorTable_clear _ _ htable]

/-- A scan started at `y <= to` with a bound of at least `to - y` and at least 1 ends; its body
runs at least once and at most as often as the bound, and it reads samples only at indices of
`[y, to]`. -/
theorem mergeScan_terminates (fw : Framework) (series : QwtSeriesData) (doAlign : Bool)
    (xMap yMap : QwtScaleMap) (iTo : Int) (xi yi : Rat) (fuel : Nat) (s : Scan)
    (hfuel : iTo - s.y ≤ (fuel : Int)) (hpos : 1 ≤ fuel) (hy : s.y ≤ iTo) :
    ∃ s1 : Scan, mergeScan fw series doAlign xMap yMap iTo xi yi fuel s = some s1 ∧
      s1.iterations ≤ s.iterations + fuel ∧ s.iterations + 1 ≤ s1.iterations ∧
      (∀ k ∈ s1.sampled, k ∈ s.sampled ∨ (s.y ≤ k ∧ k ≤ iTo)) := by
  induction fuel generalizing s with
  | zero => omega
  | succ n ih =>
    unfold mergeScan
    simp only
    split_ifs with hcond
    · have hlt : s.y + 1 < iTo := hcond.1
      obtain ⟨s1, hs1, hiter, hiter1, hmem⟩ := ih
        { y := s.y + 1
          xi1 := (pixelPoint fw doAlign xMap yMap (series.sample s.y)).x
          yi1 := (pixelPoint fw doAlign xMap yMap (series.sample s.y)).y
          nextSample := series.sample s.y
          sampled := s.sampled ++ [s.y]
          iterations := s.iterations + 1 }
        (by simp only; omega) (by omega) (by simp only; omega)
      refine ⟨s1, hs1, ?_, ?_, ?_⟩
      · simp only at hiter
        omega
      · simp only at hiter1
        omega
      · intro k hk
        rcases hmem k hk with h | h
        · simp only [List.mem_append, List.mem_singleton] at h
          rcases h with h | h
          · exact Or.inl h
          · exact Or.inr ⟨by omega, by omega⟩
        · simp only at h
          exact Or.inr ⟨by omega, h.2⟩
    · refine ⟨_, rfl, ?_, ?_, ?_⟩
      · simp only
        omega
      · simp only
        omega
      · intro k hk
        simp only [List.mem_append, List.mem_singleton] at hk
        rcases hk with h | h
        · exact Or.inl h
        · exact Or.inr ⟨by omega, by omega⟩

/-- For `i < to` the body of the outer loop of `drawLines` ends; it reads sample `i` and then
samples of `[i + 1, to]`, and records one scan of between 1 and `to - i` runs. -/
theorem drawLinesBody_trace (fw : Framework) (d : PrivateData) (series : QwtSeriesData)
    (doAlign : Bool) (format : Format) (xMap yMap : QwtScaleMap) (canvasRect : QRectF)
    (iTo : Int) (t : LinesTrace) (i : Int) (hi : i < iTo) :
    ∃ (t1 : LinesTrace) (n : Nat) (ks : List Int),
      drawLinesBody fw d series doAlign format xMap yMap canvasRect iTo t i = some t1 ∧
      t1.sampled = t.sampled ++ i :: ks ∧ (∀ k ∈ ks, i + 1 ≤ k ∧ k ≤ iTo) ∧
      t1.scans = t.scans ++ [(i, n)] ∧ 1 ≤ n ∧ (n : Int) ≤ iTo - i := by
  obtain ⟨s1, hs1, hiter, hiter1, hmem⟩ := mergeScan_terminates fw series doAlign xMap yMap iTo
    (pixelPoint fw doAlign xMap yMap (series.sample i)).x
    (pixelPoint fw doAlign xMap yMap (series.sample i)).y (iTo - i).toNat
    { y := i + 1
      xi1 := (pixelPoint fw doAlign xMap yMap (series.sample i)).x
      yi1 := (pixelPoint fw doAlign xMap yMap (series.sample i)).y
      nextSample := ⟨0, 0, 0⟩
      sampled := []
      iterations := 0 }
    (by simp only; omega) (by omega) (by simp only; omega)
  have hks : ∀ k ∈ s1.sampled, i + 1 ≤ k ∧ k ≤ iTo := by
    intro k hk
    rcases hmem k hk with h | h
    · simp at h
    · exact h
  have hn : (s1.iterations : Int) ≤ iTo - i := by
    simp only at hiter
    omega
  have hn1 : 1 ≤ s1.iterations := by
    simp only at hiter1
    omega
  unfold drawLinesBody
  simp only [hs1]
  split_ifs
  · exact ⟨_, s1.iterations, s1.sampled, rfl, by simp, hks, rfl, hn1, hn⟩
  · exact ⟨_, s1.iterations, s1.sampled, rfl, by simp, hks, rfl, hn1, hn⟩
  · exact ⟨_, s1.iterations, s1.sampled, rfl, by simp, hks, rfl, hn1, hn⟩

/-- The outer loop of `drawLines` over counter values of `[from, to)` ends, reads samples only
at indices of `[from, to]` and records one bounded scan per counter value. -/
theorem drawLinesBody_foldlM (fw : Framework) (d : PrivateData) (series : QwtSeriesData)
    (doAlign : Bool) (format : Format) (xMap yMap : QwtScaleMap) (canvasRect : QRectF)
    (iFrom iTo : Int) (l : List Int) (hl : ∀ i ∈ l, iFrom ≤ i ∧ i < iTo) (t : LinesTrace) :
    ∃ t1 : LinesTrace,
      l.foldlM (drawLinesBody fw d series doAlign format xMap yMap canvasRect iTo) t
        = some t1 ∧
      (∀ k ∈ t1.sampled, k ∈ t.sampled ∨ (iFrom ≤ k ∧ k ≤ iTo)) ∧
      (∀ e ∈ t1.scans, e ∈ t.scans ∨
        (iFrom ≤ e.1 ∧ e.1 < iTo ∧ 1 ≤ e.2 ∧ (e.2 : Int) ≤ iTo - e.1)) ∧
      t1.scans.map Prod.fst = t.scans.map Prod.fst ++ l := by
  induction l generalizing t with
  | nil => exact ⟨t, rfl, fun k hk => Or.inl hk, fun e he => Or.inl he, by simp⟩
  | cons i l ih =>
    have hi := hl i (List.mem_cons_self i l)
    obtain ⟨t1, n, ks, hbody, hsampled, hks, hscans, hn1, hn⟩ :=
      drawLinesBody_trace fw d series doAlign format xMap yMap canvasRect iTo t i hi.2
    obtain ⟨t2, hfold, hs2, he2, hfst⟩ :=
      ih (fun j hj => hl j (List.mem_cons_of_mem i hj)) t1
    refine ⟨t2, ?_, ?_, ?_, ?_⟩
    · rw [List.foldlM_cons, hbody]
      exact hfold
    · intro k hk
      rcases hs2 k hk with h | h
      · rw [hsampled] at h
        simp only [List.mem_append, List.mem_cons] at h
        rcases h with h | h | h
        · exact Or.inl h
        · exact Or.inr ⟨by omega, by omega⟩
        · have := hks k h
          exact Or.inr ⟨by omega, this.2⟩
      · exact Or.inr h
    · intro e he
      rcases he2 e he with h | h
      · rw [hscans] at h
        simp only [List.mem_append, List.mem_singleton] at h
        rcases h with h | h
        · exact Or.inl h
        · subst h
          exact Or.inr ⟨hi.1, hi.2, hn1, hn⟩
      · exact Or.inr h
    · rw [hfst, hscans]
      simp

/-! ## Normalisation of the index range in `drawSeries` -/

/-- C1: for every curve, painter, scale maps, canvas rectangle and `from`, and every `to < 0`,
`drawSeries( from, to )` returns the same curve state and the same painter (so the same sequence
of drawing operations) as `drawSeries( from, dataSize() - 1 )`. -/
theorem drawSeries_negative_to_eq_last (fw : Framework) (c : CpPlotCurve)
    (painter : Option QPainter) (xMap yMap : QwtScaleMap) (canvasRect : QRectF)
    (iFrom iTo : Int) (hto : iTo < 0) :
    c.drawSeries fw painter xMap yMap canvasRect iFrom iTo
      = c.drawSeries fw painter xMap yMap canvasRect iFrom ((c.dataSize : Int) - 1) := by
  unfold CpPlotCurve.drawSeries
  cases painter with
  | none => rfl
  | some p =>
    by_cases hsize : c.dataSize ≤ 0
    · simp [hsize]
    · have hlast : ¬ ((c.dataSize : Int) - 1 < 0) := by omega
      simp only [hsize, hto, hlast, if_true, if_false]

/-- C1, at a concrete input: three samples, `from = 0`, `to = -1`. -/
theorem drawSeries_negative_to_eq_last_witness :
    (-1 : Int) < 0 ∧
    (demoCurve.setSamples demoSamples).drawSeries demoFramework (some demoPainter)
        demoMap demoMap demoCanvas 0 (-1)
      = (demoCurve.setSamples demoSamples).drawSeries demoFramework (some demoPainter)
        demoMap demoMap demoCanvas 0
        (((demoCurve.setSamples demoSamples).dataSize : Int) - 1) :=
  ⟨by decide, drawSeries_negative_to_eq_last demoFramework (demoCurve.setSamples demoSamples)
    (some demoPainter) demoMap demoMap demoCanvas 0 (-1) (by decide)⟩

/-- C5: `drawSeries` changes neither the curve nor the painter when the series is empty
(`dataSize() <= 0`) or when, after `to < 0` has become `dataSize() - 1` and `from < 0` has
become `0`, `from > to`. -/
theorem drawSeries_empty_range_noop (fw : Framework) (c : CpPlotCurve)
    (painter : Option QPainter) (xMap yMap : QwtScaleMap) (canvasRect : QRectF)
    (iFrom iTo : Int)
    (h : c.dataSize ≤ 0 ∨
      (if iFrom < 0 then 0 else iFrom) > (if iTo < 0 then (c.dataSize : Int) - 1 else iTo)) :
    c.drawSeries fw painter xMap yMap canvasRect iFrom iTo = (c, painter) := by
  unfold CpPlotCurve.drawSeries
  cases painter with
  | none => rfl
  | some p =>
    by_cases hsize : c.dataSize ≤ 0
    · simp [hsize]
    · rcases h with h | h
      · exact absurd h hsize
      · simp only [hsize, if_false]
        rw [if_pos h]

/-- C5, at a concrete input: three samples, `from = 2`, `to = 1`. -/
theorem drawSeries_empty_range_noop_witness :
    (demoCurve.setSamples demoSamples).drawSeries demoFramework (some demoPainter)
        demoMap demoMap demoCanvas 2 1
      = (demoCurve.setSamples demoSamples, some demoPainter) :=
  drawSeries_empty_range_noop demoFramework (demoCurve.setSamples demoSamples)
    (some demoPainter) demoMap demoMap demoCanvas 2 1 (Or.inr (by decide))

/-! ## The pen width -/

/-- C2: on a freshly constructed curve `setPenWidth( -5 )` clamps the argument to 0, finds it
different from the stored 2 and stores the constant 10, so `penWidth()` then returns 10, not 0;
and `setPenWidth( 3 )` likewise leaves 10, not 3. -/
theorem setPenWidth_fresh_stores_ten (linear : QwtColorMap) :
    ((CpPlotCurve.init linear).setPenWidth (-5)).penWidth = 10 ∧
    ((CpPlotCurve.init linear).setPenWidth (-5)).penWidth ≠ max (-5) 0 ∧
    ((CpPlotCurve.init linear).setPenWidth 3).penWidth = 10 := by
  have h5 : ((CpPlotCurve.init linear).setPenWidth (-5)).penWidth = 10 := by
    simp [CpPlotCurve.setPenWidth, CpPlotCurve.penWidth, CpPlotCurve.init, PrivateData.new,
      CpPlotCurve.legendChanged, CpPlotCurve.itemChanged]
  have h3 : ((CpPlotCurve.init linear).setPenWidth 3).penWidth = 10 := by
    simp [CpPlotCurve.setPenWidth, CpPlotCurve.penWidth, CpPlotCurve.init, PrivateData.new,
      CpPlotCurve.legendChanged, CpPlotCurve.itemChanged]
    norm_num
  refine ⟨h5, ?_, h3⟩
  rw [h5]
  norm_num

/-! ## An invalid colour range -/

/-- C4: when the colour range is inverted (`lo > hi`), `drawDots`, `drawSeries` and `drawLines`
return the curve and the painter they were given: nothing is drawn, no colour table is built,
the state is unchanged, and `drawLines` reads no sample, writes no debug line and runs no
scan. -/
theorem invalid_range_draws_nothing (fw : Framework) (c : CpPlotCurve)
    (xMap yMap : QwtScaleMap) (canvasRect : QRectF) (iFrom iTo : Int)
    (hinv : c.d_data.colorRange.minValue > c.d_data.colorRange.maxValue) :
    (∀ p : QPainter, c.drawDots fw p xMap yMap canvasRect iFrom iTo = (c, p)) ∧
    (∀ p : Option QPainter, c.drawSeries fw p xMap yMap canvasRect iFrom iTo = (c, p)) ∧
    (∀ p : QPainter, c.drawLines fw p xMap yMap canvasRect iFrom iTo
      = some (c, { painter := p, sampled := [], scans := [], debug := [] })) := by
  have hv : c.d_data.colorRange.isValid = false := by
    simp only [QwtInterval.isValid, decide_eq_false_iff_not, not_le]
    exact hinv
  have hdots : ∀ (a b : Int) (p : QPainter),
      c.drawDots fw p xMap yMap canvasRect a b = (c, p) := by
    intro a b p
    simp [CpPlotCurve.drawDots, hv]
  refine ⟨hdots iFrom iTo, ?_, ?_⟩
  · intro p
    unfold CpPlotCurve.drawSeries
    cases p with
    | none => rfl
    | some q =>
      simp only [hdots]
      split_ifs <;> rfl
  · intro p
    simp [CpPlotCurve.drawLines, hv]

/-- C4, at a concrete input: the range `[1000, 0]` of Scenario B. -/
theorem invalid_range_draws_nothing_witness :
    ((demoCurve.setSamples demoSamples).setColorRange ⟨1000, 0⟩).drawSeries demoFramework
        (some demoPainter) demoMap demoMap demoCanvas 0 (-1)
      = ((demoCurve.setSamples demoSamples).setColorRange ⟨1000, 0⟩, some demoPainter) :=
  (invalid_range_draws_nothing demoFramework
    ((demoCurve.setSamples demoSamples).setColorRange ⟨1000, 0⟩) demoMap demoMap demoCanvas
    0 (-1) (by decide!)).2.1 (some demoPainter)

/-! ## Notifications of the mutators -/

/-- C7, as the claim states it, fails: `setColorMap` with the colour map that is already
installed sends both notifications, and `setPaintAttribute( ClipPoints, false )` on a fresh curve
changes the stored flags and sends none. -/
theorem notification_iff_changed_fails :
    (((demoCurve.setColorMap demoCurve.colorMap).colorMap.addr = demoCurve.colorMap.addr) ∧
      (demoCurve.setColorMap demoCurve.colorMap).signals
        = demoCurve.signals ++ [Signal.legendChanged, Signal.itemChanged]) ∧
    ((demoCurve.setPaintAttribute ClipPoints false).d_data.paintAttributes
        ≠ demoCurve.d_data.paintAttributes ∧
      (demoCurve.setPaintAttribute ClipPoints false).signals = demoCurve.signals) := by
  decide!

/-- C7, amended: `setColorRange` and `setPenWidth` send `legendChanged` and `itemChanged` exactly
when the new value (for the pen width, the argument clamped at 0) differs from the stored one;
`setColorMap` sends both on every call; `setPaintAttribute` sends none on any call. -/
theorem mutator_notifications (c : CpPlotCurve) :
    (∀ interval : QwtInterval, (c.setColorRange interval).signals
      = if interval ≠ c.colorRange then
          c.signals ++ [Signal.legendChanged, Signal.itemChanged]
        else c.signals) ∧
    (∀ w : Rat, (c.setPenWidth w).signals
      = if max w 0 ≠ c.penWidth then
          c.signals ++ [Signal.legendChanged, Signal.itemChanged]
        else c.signals) ∧
    (∀ m : QwtColorMap, (c.setColorMap m).signals
      = c.signals ++ [Signal.legendChanged, Signal.itemChanged]) ∧
    (∀ (attr : Nat) (enable : Bool), (c.setPaintAttribute attr enable).signals = c.signals) := by
  refine ⟨?_, ?_, ?_, ?_⟩
  · intro interval
    unfold CpPlotCurve.setColorRange CpPlotCurve.colorRange
    split_ifs <;> simp [CpPlotCurve.legendChanged, CpPlotCurve.itemChanged]
  · intro w
    have hclamp : (if w < 0 then (0 : Rat) else w) = max w 0 := by
      split_ifs with h
      · exact (max_eq_right (le_of_lt h)).symm
      · exact (max_eq_left (not_lt.mp h)).symm
    unfold CpPlotCurve.setPenWidth CpPlotCurve.penWidth
    simp only [hclamp]
    by_cases h : c.d_data.penWidth = max w 0
    · simp [h]
    · have h2 : max w 0 ≠ c.d_data.penWidth := fun e => h e.symm
      simp [h, h2, CpPlotCurve.legendChanged, CpPlotCurve.itemChanged]
  · intro m
    unfold CpPlotCurve.setColorMap
    split_ifs <;> simp [CpPlotCurve.legendChanged, CpPlotCurve.itemChanged]
  · intro attr enable
    unfold CpPlotCurve.setPaintAttribute
    split_ifs <;> rfl

/-! ## Dots mode -/

/-- C3: with a valid colour range and `0 <= from <= to < count`, the operations `drawDots` adds to
the painter are, in increasing index order, one point for each index `i` of `[from, to]` whose
projected pixel point (x transformed by the x map, y by the y map, each rounded by `qRound` iff
rounding alignment is on) lies inside `canvasRect` when `ClipPoints` is set, and one for every
index of `[from, to]` when it is not set (then `to - from + 1` points); the point of sample `i`
is at its projected pixel point and carries the pen of the colour resolved from its `z` and of
the configured width; every index drawn is an index of the series. -/
theorem drawDots_draws_visible_samples (fw : Framework) (c : CpPlotCurve) (painter : QPainter)
    (xMap yMap : QwtScaleMap) (canvasRect : QRectF) (iFrom iTo : Int)
    (hvalid : c.d_data.colorRange.isValid = true)
    (h0 : 0 ≤ iFrom) (h1 : iFrom ≤ iTo) (h2 : iTo < (c.dataSize : Int)) :
    ∃ idx : List Int,
      idx.Pairwise (fun a b => a < b) ∧
      (∀ i : Int, i ∈ idx ↔ (iFrom ≤ i ∧ i ≤ iTo ∧
        (c.testPaintAttribute ClipPoints = true →
          fw.contains canvasRect
            (project fw painter.roundingAlignment xMap yMap (c.series.sample i)).x
            (project fw painter.roundingAlignment xMap yMap (c.series.sample i)).y
            = true))) ∧
      (c.drawDots fw painter xMap yMap canvasRect iFrom iTo).2.ops
        = painter.ops ++ idx.map (fun i =>
            DrawOp.point
              ⟨resolve (c.series.sample i).z c.d_data.colorRange c.d_data.colorMap,
                c.d_data.penWidth⟩
              (project fw painter.roundingAlignment xMap yMap (c.series.sample i))) ∧
      (c.testPaintAttribute ClipPoints = false → (idx.length : Int) = iTo - iFrom + 1) ∧
      (∀ i ∈ idx, 0 ≤ i ∧ i < (c.dataSize : Int)) := by
  refine ⟨(forRange iFrom iTo).filter (fun i =>
      decide (¬ ((c.d_data.buildColorTable c.d_data.colorMap.format).paintAttributes
          &&& ClipPoints ≠ 0 ∧
        fw.contains canvasRect
          (pixelPoint fw painter.roundingAlignment xMap yMap (c.series.sample i)).x
          (pixelPoint fw painter.roundingAlignment xMap yMap (c.series.sample i)).y
          = false))), ?_, ?_, ?_, ?_, ?_⟩
  · exact (forRange_pairwise iFrom iTo).sublist (List.filter_sublist _)
  · intro i
    have hattr : (c.d_data.buildColorTable c.d_data.colorMap.format).paintAttributes
        = c.d_data.paintAttributes := by
      unfold PrivateData.buildColorTable
      split_ifs <;> rfl
    rw [List.mem_filter, mem_forRange, hattr, ← pixelPoint_eq_project]
    simp only [CpPlotCurve.testPaintAttribute, decide_eq_true_eq]
    constructor
    · rintro ⟨⟨ha, hb⟩, hc⟩
      refine ⟨ha, hb, fun hset => ?_⟩
      by_contra hcon
      exact hc ⟨hset, by simpa using hcon⟩
    · rintro ⟨ha, hb, hc⟩
      refine ⟨⟨ha, hb⟩, ?_⟩
      rintro ⟨hset, hout⟩
      rw [hc hset] at hout
      exact Bool.noConfusion hout
  · rw [(drawDots_valid fw c painter xMap yMap canvasRect iFrom iTo hvalid).1]
    unfold dotsOps
    congr 1
    apply List.map_congr_left
    intro i _
    rw [samplePen_buildColorTable, pixelPoint_eq_project]
  · intro hoff
    have hattr : (c.d_data.buildColorTable c.d_data.colorMap.format).paintAttributes
        &&& ClipPoints = 0 := by
      have h3 : (c.d_data.buildColorTable c.d_data.colorMap.format).paintAttributes
          = c.d_data.paintAttributes := by
        unfold PrivateData.buildColorTable
        split_ifs <;> rfl
      rw [h3]
      simpa [CpPlotCurve.testPaintAttribute] using hoff
    have hall : ∀ i ∈ forRange iFrom iTo,
        (fun i => decide (¬ ((c.d_data.buildColorTable c.d_data.colorMap.format).paintAttributes
            &&& ClipPoints ≠ 0 ∧
          fw.contains canvasRect
            (pixelPoint fw painter.roundingAlignment xMap yMap (c.series.sample i)).x
            (pixelPoint fw painter.roundingAlignment xMap yMap (c.series.sample i)).y
            = false))) i = true := by
      intro i _
      simp [hattr]
    rw [List.filter_eq_self.mpr hall, forRange_length]
    omega
  · intro i hi
    have hmem := (mem_forRange iFrom iTo i).mp (List.mem_filter.mp hi).1
    omega

/-- C3, at concrete inputs. Scenario A (samples `(0,0,0), (1,1,500), (2,2,1000)`, range
`[0, 1000]`, `ClipPoints` off, indices `0 .. 2`) under the maps `x -> 2 x` and `y -> 5 + 3 y`
draws the three points `(0,5), (2,8), (4,11)`; the samples `(1/2, 1), (3, 1/4)` are drawn at
`(1,8), (6,6)` with rounding alignment and at `(1,8), (6,23/4)` without; and with `ClipPoints`
on, identity maps and the canvas `[0,1] x [0,1]` the third sample of Scenario A is skipped. -/
theorem drawDots_draws_visible_samples_witness :
    ((((demoCurve.setSamples demoSamples).setPaintAttribute ClipPoints false).drawDots
        demoFramework demoPainter demoXMap demoYMap demoCanvas 0 2).2.ops
      = [DrawOp.point ⟨0, 2⟩ ⟨0, 5⟩, DrawOp.point ⟨500, 2⟩ ⟨2, 8⟩,
          DrawOp.point ⟨1000, 2⟩ ⟨4, 11⟩] ∧
     (((demoCurve.setSamples demoSkewSamples).setPaintAttribute ClipPoints false).drawDots
        demoFramework demoPainter demoXMap demoYMap demoCanvas 0 1).2.ops
      = [DrawOp.point ⟨0, 2⟩ ⟨1, 8⟩, DrawOp.point ⟨500, 2⟩ ⟨6, 6⟩] ∧
     (((demoCurve.setSamples demoSkewSamples).setPaintAttribute ClipPoints false).drawDots
        demoFramework demoVectorPainter demoXMap demoYMap demoCanvas 0 1).2.ops
      = [DrawOp.point ⟨0, 2⟩ ⟨1, 8⟩, DrawOp.point ⟨500, 2⟩ ⟨6, 23 / 4⟩] ∧
     ((demoCurve.setSamples demoSamples).drawDots
        demoFramework demoPainter demoMap demoMap demoCanvas 0 2).2.ops
      = [DrawOp.point ⟨0, 2⟩ ⟨0, 0⟩, DrawOp.point ⟨500, 2⟩ ⟨1, 1⟩]) ∧
    ∃ idx : List Int,
      idx.Pairwise (fun a b => a < b) ∧
      (∀ i : Int, i ∈ idx ↔ ((0 : Int) ≤ i ∧ i ≤ 2 ∧
        (((demoCurve.setSamples demoSamples).setPaintAttribute ClipPoints
            false).testPaintAttribute ClipPoints = true →
          demoFramework.contains demoCanvas
            (project demoFramework demoPainter.roundingAlignment demoXMap demoYMap
              (((demoCurve.setSamples demoSamples).setPaintAttribute ClipPoints
                false).series.sample i)).x
            (project demoFramework demoPainter.roundingAlignment demoXMap demoYMap
              (((demoCurve.setSamples demoSamples).setPaintAttribute ClipPoints
                false).series.sample i)).y
            = true))) ∧
      (((demoCurve.setSamples demoSamples).setPaintAttribute ClipPoints false).drawDots
          demoFramework demoPainter demoXMap demoYMap demoCanvas 0 2).2.ops
        = demoPainter.ops ++ idx.map (fun i =>
            DrawOp.point
              ⟨resolve
                  (((demoCurve.setSamples demoSamples).setPaintAttribute ClipPoints
                    false).series.sample i).z
                  ((demoCurve.setSamples demoSamples).setPaintAttribute ClipPoints
                    false).d_data.colorRange
                  ((demoCurve.setSamples demoSamples).setPaintAttribute ClipPoints
                    false).d_data.colorMap,
                ((demoCurve.setSamples demoSamples).setPaintAttribute ClipPoints
                  false).d_data.penWidth⟩
              (project demoFramework demoPainter.roundingAlignment demoXMap demoYMap
                (((demoCurve.setSamples demoSamples).setPaintAttribute ClipPoints
                  false).series.sample i))) ∧
      (((demoCurve.setSamples demoSamples).setPaintAttribute ClipPoints
          false).testPaintAttribute ClipPoints = false → (idx.length : Int) = 2 - 0 + 1) ∧
      (∀ i ∈ idx, 0 ≤ i ∧ i < ((((demoCurve.setSamples demoSamples).setPaintAttribute
          ClipPoints false).dataSize : Nat) : Int)) :=
  ⟨by decide!,
    drawDots_draws_visible_samples demoFramework
      ((demoCurve.setSamples demoSamples).setPaintAttribute ClipPoints false) demoPainter
      demoXMap demoYMap demoCanvas 0 2 (by decide!) (by decide) (by decide) (by decide)⟩

/-! ## Idempotence of the render pass -/

/-- On a curve with an empty colour table `drawSeries` returns the curve unchanged and appends
to the painter a list of operations that depends on the painter only through its rounding
alignment, which it keeps. -/
theorem drawSeries_some (fw : Framework) (c : CpPlotCurve) (p : QPainter)
    (xMap yMap : QwtScaleMap) (canvasRect : QRectF) (iFrom iTo : Int)
    (htable : c.d_data.colorTable = []) :
    ∃ (q : QPainter) (cmds : Bool → List DrawOp),
      c.drawSeries fw (some p) xMap yMap canvasRect iFrom iTo = (c, some q) ∧
      q.roundingAlignment = p.roundingAlignment ∧
      (∀ p1 : QPainter, ∃ q1 : QPainter,
        c.drawSeries fw (some p1) xMap yMap canvasRect iFrom iTo = (c, some q1) ∧
        q1.roundingAlignment = p1.roundingAlignment ∧
        q1.ops = p1.ops ++ cmds p1.roundingAlignment) := by
  have key : ∀ p1 : QPainter, ∃ q1 : QPainter,
      c.drawSeries fw (some p1) xMap yMap canvasRect iFrom iTo = (c, some q1) ∧
      q1.roundingAlignment = p1.roundingAlignment ∧
      q1.ops = p1.ops ++
        (if c.dataSize ≤ 0 then []
         else if (if iFrom < 0 then 0 else iFrom)
             > (if iTo < 0 then (c.dataSize : Int) - 1 else iTo) then []
         else if c.d_data.colorRange.isValid = false then []
         else dotsOps fw (c.d_data.buildColorTable c.d_data.colorMap.format) c.series
           p1.roundingAlignment c.d_data.colorMap.format xMap yMap canvasRect
           (forRange (if iFrom < 0 then 0 else iFrom)
             (if iTo < 0 then (c.dataSize : Int) - 1 else iTo))) := by
    intro p1
    unfold CpPlotCurve.drawSeries
    by_cases hsize : c.dataSize ≤ 0
    · exact ⟨p1, by simp [hsize]⟩
    · by_cases hrange : (if iFrom < 0 then 0 else iFrom)
          > (if iTo < 0 then (c.dataSize : Int) - 1 else iTo)
      · refine ⟨p1, ?_, rfl, ?_⟩
        · simp only [hsize, if_false]
          rw [if_pos hrange]
        · rw [if_neg hsize, if_pos hrange]
          simp
      · by_cases hvalid : c.d_data.colorRange.isValid = false
        · refine ⟨p1, ?_, rfl, ?_⟩
          · simp only [hsize, if_false]
            rw [if_neg hrange]
            simp [CpPlotCurve.drawDots, hvalid]
          · rw [if_neg hsize, if_neg hrange, if_pos hvalid]
            simp
        · have hv : c.d_data.colorRange.isValid = true := by simpa using hvalid
          obtain ⟨hops, halign, hstate⟩ := drawDots_valid fw c p1 xMap yMap canvasRect
            (if iFrom < 0 then 0 else iFrom)
            (if iTo < 0 then (c.dataSize : Int) - 1 else iTo) hv
          refine ⟨(c.drawDots fw p1 xMap yMap canvasRect (if iFrom < 0 then 0 else iFrom)
            (if iTo < 0 then (c.dataSize : Int) - 1 else iTo)).2, ?_, halign, ?_⟩
          · simp only [hsize, if_false]
            rw [if_neg hrange, hstate htable]
          · rw [if_neg hsize, if_neg hrange, if_neg hvalid]
            exact hops
  obtain ⟨q, hq, halign, _⟩ := key p
  exact ⟨q, fun b =>
    (if c.dataSize ≤ 0 then []
     else if (if iFrom < 0 then 0 else iFrom)
         > (if iTo < 0 then (c.dataSize : Int) - 1 else iTo) then []
     else if c.d_data.colorRange.isValid = false then []
     else dotsOps fw (c.d_data.buildColorTable c.d_data.colorMap.format) c.series
       b c.d_data.colorMap.format xMap yMap canvasRect
       (forRange (if iFrom < 0 then 0 else iFrom)
         (if iTo < 0 then (c.dataSize : Int) - 1 else iTo))), hq, halign, key⟩

/-- C6: for a curve whose colour table is empty, a `drawSeries` pass returns the curve unchanged
(colour map, colour range, pen width, paint attributes and colour table as before the pass), and
a second pass with the same samples, maps, canvas rectangle and index range on the painter left
by the first adds exactly the operations the first pass added. -/
theorem drawSeries_idempotent (fw : Framework) (c : CpPlotCurve) (painter : Option QPainter)
    (xMap yMap : QwtScaleMap) (canvasRect : QRectF) (iFrom iTo : Int)
    (htable : c.d_data.colorTable = []) :
    (c.drawSeries fw painter xMap yMap canvasRect iFrom iTo).1 = c ∧
    ((c.drawSeries fw painter xMap yMap canvasRect iFrom iTo).1.drawSeries fw
        (c.drawSeries fw painter xMap yMap canvasRect iFrom iTo).2
        xMap yMap canvasRect iFrom iTo).1 = c ∧
    ∃ cmds : List DrawOp,
      paintedOps (c.drawSeries fw painter xMap yMap canvasRect iFrom iTo).2
        = paintedOps painter ++ cmds ∧
      paintedOps ((c.drawSeries fw painter xMap yMap canvasRect iFrom iTo).1.drawSeries fw
          (c.drawSeries fw painter xMap yMap canvasRect iFrom iTo).2
          xMap yMap canvasRect iFrom iTo).2
        = paintedOps (c.drawSeries fw painter xMap yMap canvasRect iFrom iTo).2 ++ cmds := by
  cases painter with
  | none =>
    refine ⟨rfl, rfl, [], ?_, ?_⟩ <;> simp [CpPlotCurve.drawSeries, paintedOps]
  | some p =>
    obtain ⟨q, cmds, hq, halign, hall⟩ :=
      drawSeries_some fw c p xMap yMap canvasRect iFrom iTo htable
    obtain ⟨q0, hq0, _, hops0⟩ := hall p
    obtain ⟨q1, hq1, _, hops1⟩ := hall q
    have hqq : q0 = q := by
      have h := hq0.symm.trans hq
      simpa using h
    subst hqq
    rw [hq, hq1]
    refine ⟨rfl, rfl, cmds p.roundingAlignment, ?_, ?_⟩
    · simpa [paintedOps] using hops0
    · simp only [paintedOps]
      rw [hops1, halign]

/-- C6, at a concrete input: the three samples of Scenario A drawn twice through the indexed
colour map, `ClipPoints` on (the third sample lies outside the canvas). -/
theorem drawSeries_idempotent_witness :
    paintedOps ((demoIndexedCurve.drawSeries demoFramework (some demoPainter)
        demoMap demoMap demoCanvas 0 (-1)).1.drawSeries demoFramework
        (demoIndexedCurve.drawSeries demoFramework (some demoPainter)
          demoMap demoMap demoCanvas 0 (-1)).2 demoMap demoMap demoCanvas 0 (-1)).2
      = [DrawOp.point ⟨1000, 2⟩ ⟨0, 0⟩, DrawOp.point ⟨1255, 2⟩ ⟨1, 1⟩,
          DrawOp.point ⟨1000, 2⟩ ⟨0, 0⟩, DrawOp.point ⟨1255, 2⟩ ⟨1, 1⟩] ∧
    (demoIndexedCurve.drawSeries demoFramework (some demoPainter)
        demoMap demoMap demoCanvas 0 (-1)).1 = demoIndexedCurve :=
  ⟨by decide!,
    (drawSeries_idempotent demoFramework demoIndexedCurve (some demoPainter)
      demoMap demoMap demoCanvas 0 (-1) (by decide!)).1⟩

/-! ## Lines mode -/

/-- C10: for `0 <= from` and `to < count` (so in particular for `0 <= from <= to < count`),
arbitrary samples and scale maps, `drawLines` ends (every scan ends within its bound), every index it passes to `series->sample()` lies in `[from, to]`
and so is an index of the series, and for each value `i` of the outer counter the body of the
`do ... while` scan runs at least once and at most `to - i` times; with a valid colour range the
outer counter takes the values `from, ..., to - 1`. -/
theorem drawLines_indices_in_range (fw : Framework) (c : CpPlotCurve) (painter : QPainter)
    (xMap yMap : QwtScaleMap) (canvasRect : QRectF) (iFrom iTo : Int)
    (h0 : 0 ≤ iFrom) (h2 : iTo < (c.dataSize : Int)) :
    ∃ r : CpPlotCurve × LinesTrace,
      c.drawLines fw painter xMap yMap canvasRect iFrom iTo = some r ∧
      (∀ k ∈ r.2.sampled, iFrom ≤ k ∧ k ≤ iTo ∧ 0 ≤ k ∧ k < (c.dataSize : Int)) ∧
      (∀ e ∈ r.2.scans, iFrom ≤ e.1 ∧ e.1 < iTo ∧ 1 ≤ e.2 ∧ (e.2 : Int) ≤ iTo - e.1) ∧
      (c.d_data.colorRange.isValid = true →
        r.2.scans.map Prod.fst = forRange iFrom (iTo - 1)) := by
  unfold CpPlotCurve.drawLines
  by_cases hvalid : c.d_data.colorRange.isValid = false
  · simp [hvalid]
  · simp only [hvalid, if_false]
    obtain ⟨t1, hfold, hs, he, hfst⟩ := drawLinesBody_foldlM fw
      (c.d_data.buildColorTable c.d_data.colorMap.format) c.series painter.roundingAlignment
      c.d_data.colorMap.format xMap yMap canvasRect iFrom iTo (forRange iFrom (iTo - 1))
      (fun i hi => by
        have := (mem_forRange iFrom (iTo - 1) i).mp hi
        omega)
      { painter := painter, sampled := [], scans := [], debug := [] }
    rw [hfold]
    refine ⟨_, rfl, ?_, ?_, ?_⟩
    · intro k hk
      rcases hs k hk with h | h
      · simp at h
      · exact ⟨h.1, h.2, by omega, by omega⟩
    · intro e hmem
      rcases he e hmem with h | h
      · simp at h
      · exact h
    · intro _
      simpa using hfst

/-- C10, at a concrete input: the three samples of Scenario C, indices `0 .. 2`. -/
theorem drawLines_indices_in_range_witness :
    (((demoCurve.setSamples demoMergeSamples).drawLines demoFramework demoPainter
        demoMap demoMap demoCanvas 0 2).map (fun r => (r.2.sampled, r.2.scans)))
      = some ([0, 1, 1, 2], [(0, 1), (1, 1)]) ∧
    ∃ r : CpPlotCurve × LinesTrace,
      (demoCurve.setSamples demoMergeSamples).drawLines demoFramework demoPainter
        demoMap demoMap demoCanvas 0 2 = some r ∧
      (∀ k ∈ r.2.sampled, (0 : Int) ≤ k ∧ k ≤ 2 ∧ 0 ≤ k ∧
        k < (((demoCurve.setSamples demoMergeSamples).dataSize : Nat) : Int)) ∧
      (∀ e ∈ r.2.scans, (0 : Int) ≤ e.1 ∧ e.1 < 2 ∧ 1 ≤ e.2 ∧ (e.2 : Int) ≤ 2 - e.1) ∧
      ((demoCurve.setSamples demoMergeSamples).d_data.colorRange.isValid = true →
        r.2.scans.map Prod.fst = forRange 0 (2 - 1)) :=
  ⟨by decide!,
    drawLines_indices_in_range demoFramework (demoCurve.setSamples demoMergeSamples)
      demoPainter demoMap demoMap demoCanvas 0 2 (by decide) (by decide)⟩

/-- C8: on the three samples of Scenario C (the first two round to the pixel `(0, 0)`, the third
to `(2, 2)`), with `ClipPoints` off and indices `0 .. 2`, `drawLines` runs its scan once for
`i = 0` and once for `i = 1`, builds the two segments `(0,0)-(0,0)` and `(0,0)-(2,2)` (the lines
it writes to `qDebug()`) and issues two `drawPolyline` calls: the merged run still yields a
segment whose two points are equal. -/
theorem drawLines_scenario_C_two_segments :
    ((((demoCurve.setSamples demoMergeSamples).setPaintAttribute ClipPoints false).drawLines
        demoFramework demoPainter demoMap demoMap demoCanvas 0 2).map
        (fun r => (r.2.scans, r.2.debug, r.2.painter.ops.length)))
      = some ([(0, 1), (1, 1)], [⟨0, 0, 0, 0⟩, ⟨0, 0, 2, 2⟩], 2) := by
  decide!

/-- C9: on a fresh curve (pen width 2) with the first two samples of Scenario A, whose first
sample resolves to colour 0, the one polyline drawn by `drawLines( 0, 1 )` carries the pen
`QPen( Qt::green, 1 )`, not the pen of the resolved colour and the configured width. -/
theorem drawLines_pen_is_green :
    (((demoCurve.setSamples demoSamples).drawLines demoFramework demoPainter
        demoMap demoMap demoCanvas 0 1).map (fun r => r.2.painter.ops.map DrawOp.pen))
      = some [⟨Qt_green, 1⟩] ∧
    (⟨resolve ((demoCurve.setSamples demoSamples).series.sample 0).z
        (demoCurve.setSamples demoSamples).d_data.colorRange
        (demoCurve.setSamples demoSamples).d_data.colorMap,
      (demoCurve.setSamples demoSamples).d_data.penWidth⟩ : QPen) = ⟨0, 2⟩ ∧
    (⟨0, 2⟩ : QPen) ≠ ⟨Qt_green, 1⟩ := by
  decide!

end CpPlot
